import Mathlib

/-!
Verification development for the sftp-service repository.

The repository implements an SFTP gateway exposing a restricted virtual
filesystem with three recognized top-level locations: the root, the incoming
directory /in and the pricelist directory /Hinnat.  The access-control
dispatcher (internal/sftp/filesystem.go, first variant) and its adapters are
embedded shallowly below.  Go strings are modelled as lists of characters,
Go byte slices as lists of natural numbers, Go errors as their message
strings, and every invocation of a storage adapter is recorded in an explicit
trace so that frame conditions (no adapter call happened) can be stated.
Functions that read the wall clock take the current time as an explicit
natural-number argument.
-/

/-- A Go string, modelled as its list of characters. -/
abbrev Str := List Char

/-- A Go byte slice, modelled as a list of byte values. -/
abbrev Bytes := List Nat

/-- strings.HasPrefix from the Go standard library. -/
def hasPre (s p : Str) : Bool := p.isPrefixOf s

/-- strings.TrimPrefix from the Go standard library. -/
def trimPre (s p : Str) : Str := if p.isPrefixOf s then s.drop p.length else s

/-- strings.Contains, specialised to the one-character separators used here. -/
def containsChar (s : Str) (c : Char) : Bool := s.contains c

/-- One invocation of a storage-adapter or backend operation.  The dispatcher
theorems use traces of these calls to express which backend work happened. -/
inductive Call where
  | downloadFile (username path : Str)
  | uploadFile (username path : Str) (content : Bytes)
  | deleteFile (username path : Str)
  | listFiles (username path : Str)
  | createDirectory (username path : Str)
  | fileCheck (username path : Str)
  | getFileInfo (username path : Str)
  | storeIncomingFile (username filename : Str) (content : Bytes)
  | listIncomingFiles (username : Str)
  | dbExecInsert (username filename : Str) (content : Bytes)
  | httpPostOrder (username filename : Str) (content : Bytes)
  | httpGetPricelist
  deriving DecidableEq

/-- storage.FileInfo from internal/storage (name, size, mtime, directory flag). -/
structure FileInfo where
  Name : Str
  Size : Int
  LastModified : Nat
  IsDir : Bool
  deriving DecidableEq

/-- storage.IncomingFileInfo from internal/storage/incoming-orders.go. -/
structure IncomingFileInfo where
  Name : Str
  Size : Int
  ModTime : Nat
  deriving DecidableEq

/- Error messages produced by the dispatcher (internal/sftp/filesystem.go). -/

/-- Dispatcher error for a path outside the allowed directories. -/
def errPathNotAllowed : Str := ("access denied: path not allowed").toList

/-- Dispatcher error for a write to a non-writable path. -/
def errWriteNotAllowed : Str := ("access denied: write not allowed to this path").toList

/-- Dispatcher error for a read under the write-only incoming directory. -/
def errInWriteOnly : Str := ("access denied: /in/ directory is write-only").toList

/-- Dispatcher error for the Remove method. -/
def errDeleteNotAllowed : Str := ("access denied: delete operations not allowed").toList

/-- Dispatcher error for a Mkdir outside the writable area. -/
def errMkdirNotAllowed : Str :=
  ("access denied: directory creation not allowed in this location").toList

/-- Dispatcher error for the Rename method. -/
def errRenameNotAllowed : Str := ("access denied: rename operations not allowed").toList

/-- Dispatcher error for the Rmdir method. -/
def errRmdirNotAllowed : Str := ("access denied: directory removal not allowed").toList

/-- Dispatcher error for a stat of an individual file under /in. -/
def errInFilesNotAccessible : Str :=
  ("access denied: /in/ directory files cannot be accessed").toList

/-- Models the sftp.ErrSSHFxOpUnsupported sentinel of the pkg/sftp library. -/
def errSSHFxOpUnsupported : Str :=
  ("sftp: operation unsupported (SSH_FX_OP_UNSUPPORTED)").toList

/-- An error message counts as an access-denied error when it carries the
access-denied marker the dispatcher puts in front of every policy denial. -/
def isAccessDenied (e : Str) : Bool := hasPre e (("access denied").toList)

/-- Path normalization: the empty path and the dot normalize to the root and a
missing leading slash is added.  In filesystem.go this normalization is
inlined at the top of isPathAllowed, Stat and Realpath. -/
def normalizePath (path : Str) : Str :=
  let path := if path == [] || path == (".").toList then ("/").toList else path
  if hasPre path (("/").toList) then path else ("/").toList ++ path

namespace sftpfs

/-- The PricelistStorage interface of internal/sftp/filesystem.go. -/
structure PricelistStorage where
  UploadFile : Str → Str → Bytes → Except Str Unit
  DownloadFile : Str → Str → Except Str Bytes
  DeleteFile : Str → Str → Except Str Unit
  ListFiles : Str → Str → Except Str (List FileInfo)
  CreateDirectory : Str → Str → Except Str Unit
  FileCheck : Str → Str → Except Str Bool
  GetFileInfo : Str → Str → Except Str FileInfo

/-- The IncomingOrdersStorage interface of internal/sftp/filesystem.go.
The FileCheck field models the FileExists method of the interface. -/
structure IncomingOrdersStorage where
  StoreIncomingFile : Str → Str → Bytes → Except Str Unit
  FileCheck : Str → Str → Except Str Bool
  ListIncomingFiles : Str → Except Str (List IncomingFileInfo)

/-- The APIFileSystem dispatcher state (first variant in filesystem.go). -/
structure APIFileSystem where
  storage : PricelistStorage
  incomingStorage : IncomingOrdersStorage
  username : Str
  allowedDirs : List Str
  allowedOps : List Str

/-- NewAPIFileSystem constructs the dispatcher with the fixed whitelist. -/
def NewAPIFileSystem (storage : PricelistStorage) (incomingStorage : IncomingOrdersStorage)
    (username : Str) : APIFileSystem :=
  { storage := storage
    incomingStorage := incomingStorage
    username := username
    allowedDirs := [("/").toList, ("/in").toList, ("/Hinnat").toList]
    allowedOps := [("list").toList, ("read").toList, ("write-in-only").toList] }

/-- isPathAllowed: the path, once normalized, must equal an allowed directory
or extend one of them past a slash. -/
def isPathAllowed (fs : APIFileSystem) (path : Str) : Bool :=
  let path := normalizePath path
  fs.allowedDirs.any (fun allowedDir =>
    path == allowedDir || hasPre path (allowedDir ++ ("/").toList))

/-- isWriteAllowed: writing is allowed only at /in and below it. -/
def isWriteAllowed (path : Str) : Bool :=
  if path == ("/").toList then false
  else hasPre path (("/in/").toList) || path == ("/in").toList

/-- isInIncomingDirectory: a direct child of /in (no further slash). -/
def isInIncomingDirectory (path : Str) : Bool :=
  hasPre path (("/in/").toList) && !(containsChar (trimPre path (("/in/").toList)) '/')

/-- An sftp.Request: the protocol method name and the requested path. -/
structure Request where
  Method : Str
  Filepath : Str
  deriving DecidableEq

/-- A directory entry synthesized or translated by the dispatcher
(the apiFileInfo type of filesystem.go). -/
structure apiFileInfo where
  name : Str
  size : Int
  modTime : Nat
  isDir : Bool
  deriving DecidableEq

/-- Fileread: policy checks, then delegation to the pricelist download. -/
def Fileread (fs : APIFileSystem) (r : Request) : Except Str Bytes × List Call :=
  if !(isPathAllowed fs r.Filepath) then (.error errPathNotAllowed, [])
  else if isInIncomingDirectory r.Filepath then (.error errInWriteOnly, [])
  else
    match fs.storage.DownloadFile fs.username r.Filepath with
    | .error e => (.error e, [Call.downloadFile fs.username r.Filepath])
    | .ok data => (.ok data, [Call.downloadFile fs.username r.Filepath])

/-- The write handle returned by Filewrite: either an incomingWriterAt bound
to the incoming adapter or an apiWriterAt bound to the pricelist adapter. -/
inductive WriterHandle where
  | incomingWriterAt (username filename : Str)
  | apiWriterAt (username path : Str)
  deriving DecidableEq

/-- filepath.Base from the Go standard library: strip trailing slashes, then
keep everything after the last slash. -/
def filepathBase (path : Str) : Str :=
  if path == [] then (".").toList
  else
    let trimmed := ((path.reverse).dropWhile (fun c => c == '/')).reverse
    if trimmed == [] then ("/").toList
    else ((trimmed.reverse).takeWhile (fun c => c != '/')).reverse

/-- Filewrite: policy checks, then creation of the matching write handle. -/
def Filewrite (fs : APIFileSystem) (r : Request) : Except Str WriterHandle :=
  if !(isPathAllowed fs r.Filepath) || !(isWriteAllowed r.Filepath) then
    .error errWriteNotAllowed
  else if isInIncomingDirectory r.Filepath then
    .ok (WriterHandle.incomingWriterAt fs.username (filepathBase r.Filepath))
  else
    .ok (WriterHandle.apiWriterAt fs.username r.Filepath)

/-- Filecmd: Remove, Rename and Rmdir are always denied; Mkdir is denied
outside the writable area and otherwise delegates to CreateDirectory; any
other method is unsupported. -/
def Filecmd (fs : APIFileSystem) (r : Request) : Except Str Unit × List Call :=
  if !(isPathAllowed fs r.Filepath) then (.error errPathNotAllowed, [])
  else if r.Method == ("Remove").toList then (.error errDeleteNotAllowed, [])
  else if r.Method == ("Mkdir").toList then
    if !(isWriteAllowed r.Filepath) then (.error errMkdirNotAllowed, [])
    else
      match fs.storage.CreateDirectory fs.username r.Filepath with
      | .error e => (.error e, [Call.createDirectory fs.username r.Filepath])
      | .ok _ => (.ok (), [Call.createDirectory fs.username r.Filepath])
  else if r.Method == ("Rename").toList then (.error errRenameNotAllowed, [])
  else if r.Method == ("Rmdir").toList then (.error errRmdirNotAllowed, [])
  else (.error errSSHFxOpUnsupported, [])

/-- listRootDirectory: two synthesized entries, stamped with the call time. -/
def listRootDirectory (now : Nat) : Except Str (List apiFileInfo) × List Call :=
  (.ok [⟨("in").toList, 0, now, true⟩, ⟨("Hinnat").toList, 0, now, true⟩], [])

/-- listIncomingDirectory: always empty, no adapter call (first variant). -/
def listIncomingDirectory : Except Str (List apiFileInfo) × List Call :=
  (.ok [], [])

/-- statInDirectory: one synthesized entry for /in. -/
def statInDirectory (now : Nat) : Except Str (List apiFileInfo) × List Call :=
  (.ok [⟨("in").toList, 0, now, true⟩], [])

/-- statHinnatDirectory: one synthesized entry for /Hinnat. -/
def statHinnatDirectory (now : Nat) : Except Str (List apiFileInfo) × List Call :=
  (.ok [⟨("Hinnat").toList, 0, now, true⟩], [])

/-- listHinnatDirectory: delegates to the pricelist ListFiles operation. -/
def listHinnatDirectory (fs : APIFileSystem) : Except Str (List apiFileInfo) × List Call :=
  match fs.storage.ListFiles fs.username (("/Hinnat").toList) with
  | .error e => (.error e, [Call.listFiles fs.username (("/Hinnat").toList)])
  | .ok files =>
      (.ok (files.map (fun f => ⟨f.Name, f.Size, f.LastModified, f.IsDir⟩)),
       [Call.listFiles fs.username (("/Hinnat").toList)])

/-- Filelist: Readlink is unsupported; the root and the two top directories
are synthesized; everything else goes to the pricelist ListFiles. -/
def Filelist (fs : APIFileSystem) (r : Request) (now : Nat) :
    Except Str (List apiFileInfo) × List Call :=
  if r.Method == ("Readlink").toList then (.error errSSHFxOpUnsupported, [])
  else if !(isPathAllowed fs r.Filepath) then (.error errPathNotAllowed, [])
  else if r.Filepath == ("/").toList || r.Filepath == [] then listRootDirectory now
  else if r.Filepath == ("/in").toList then
    if r.Method == ("Stat").toList then statInDirectory now else listIncomingDirectory
  else if r.Filepath == ("/Hinnat").toList then
    if r.Method == ("Stat").toList then statHinnatDirectory now else listHinnatDirectory fs
  else
    match fs.storage.ListFiles fs.username r.Filepath with
    | .error e => (.error e, [Call.listFiles fs.username r.Filepath])
    | .ok files =>
        (.ok (files.map (fun f => ⟨f.Name, f.Size, f.LastModified, f.IsDir⟩)),
         [Call.listFiles fs.username r.Filepath])

/-- Stat: normalization, policy check, synthesized entries for root and the
two top directories, GetFileInfo delegation under /Hinnat, the distinct
denial for files under /in, and not-found otherwise. -/
def Stat (fs : APIFileSystem) (r : Request) (now : Nat) :
    Except Str apiFileInfo × List Call :=
  let path := normalizePath r.Filepath
  if !(isPathAllowed fs path) then (.error errPathNotAllowed, [])
  else if path == ("/").toList then (.ok ⟨[], 0, now, true⟩, [])
  else if path == ("/in").toList then (.ok ⟨("in").toList, 0, now, true⟩, [])
  else if path == ("/Hinnat").toList then (.ok ⟨("Hinnat").toList, 0, now, true⟩, [])
  else if hasPre path (("/Hinnat/").toList) then
    let filename := trimPre path (("/Hinnat/").toList)
    match fs.storage.GetFileInfo fs.username filename with
    | .error e => (.error e, [Call.getFileInfo fs.username filename])
    | .ok fi =>
        (.ok ⟨fi.Name, fi.Size, fi.LastModified, fi.IsDir⟩,
         [Call.getFileInfo fs.username filename])
  else if isInIncomingDirectory path then (.error errInFilesNotAccessible, [])
  else (.error (("file not found: ").toList ++ path), [])

/-- WriteAt of the write handles (identical for apiWriterAt and
incomingWriterAt): grow the buffer with zero fill up to the highest byte
touched, then copy the segment in place at its offset. -/
def writeAt (data : Bytes) (p : Bytes) (off : Nat) : Bytes :=
  let data :=
    if off + p.length > data.length then
      data ++ List.replicate (off + p.length - data.length) 0
    else data
  data.take off ++ p ++ data.drop (off + p.length)

/-- apiWriterAt.Close: flush the whole buffer to UploadFile when nonempty,
otherwise succeed without any call. -/
def apiWriterAtClose (storage : PricelistStorage) (username path : Str) (data : Bytes) :
    Except Str Unit × List Call :=
  if data.length > 0 then
    match storage.UploadFile username path data with
    | .error e => (.error e, [Call.uploadFile username path data])
    | .ok _ => (.ok (), [Call.uploadFile username path data])
  else (.ok (), [])

/-- incomingWriterAt.Close: flush the whole buffer to StoreIncomingFile when
nonempty, otherwise succeed without any call. -/
def incomingWriterAtClose (incomingStorage : IncomingOrdersStorage)
    (username filename : Str) (data : Bytes) : Except Str Unit × List Call :=
  if data.length > 0 then
    match incomingStorage.StoreIncomingFile username filename data with
    | .error e => (.error e, [Call.storeIncomingFile username filename data])
    | .ok _ => (.ok (), [Call.storeIncomingFile username filename data])
  else (.ok (), [])

end sftpfs

namespace sftpfs

/-- The buffer produced by delivering a finite sequence of WriteAt calls, in
order, to a freshly opened write handle (whose buffer starts empty).  Each
element pairs the offset with the delivered segment. -/
def runWrites (ws : List (Nat × Bytes)) : Bytes :=
  ws.foldl (fun d w => writeAt d w.2 w.1) []

/-- The highest offset-plus-length touched by a sequence of WriteAt calls. -/
def highWater (ws : List (Nat × Bytes)) : Nat :=
  ws.foldl (fun m w => max m (w.1 + w.2.length)) 0

/-- The byte-wise reassembly of the delivered segments at their offsets: the
byte at index i comes from the last delivered segment covering i, and
positions no segment covers are zero. -/
def reassemble (ws : List (Nat × Bytes)) (i : Nat) : Nat :=
  ws.foldl (fun b w => if w.1 ≤ i ∧ i < w.1 + w.2.length then w.2.getD (i - w.1) 0 else b) 0

end sftpfs

/-- Byte values of a Go string (the []byte conversion). -/
def strBytes (s : Str) : Bytes := s.map Char.toNat

/-- Vocabulary of the specification: the top-level segment of a path is seg
when the normalized path is exactly slash-seg or continues past slash-seg
with another slash. -/
def hasTopSegment (path : Str) (seg : Str) : Bool :=
  let p := normalizePath path
  p == ('/' :: seg) || hasPre p ('/' :: (seg ++ ('/' :: [])))

/-- An operation result counts as an access-denied outcome when it is an
error carrying the access-denied marker. -/
def resultAccessDenied {α : Type} (r : Except Str α) : Bool :=
  match r with
  | .error e => isAccessDenied e
  | .ok _ => false

namespace storage

/-- The size-limit error shared by internal/storage/incoming-orders.go and
the SendOrderToAPI variant. -/
def errSizeLimit : Str := ("file size exceeds 100KB limit").toList

/-- The database dependency of IncomingOrdersStorage: one Exec of the
insert-or-replace statement with its four query parameters. -/
structure DB where
  exec : Str → Str → Bytes → Nat → Except Str Unit

/-- StoreIncomingFile from internal/storage/incoming-orders.go: content above
102400 bytes is rejected before any database work; otherwise the upsert
statement runs with (username, filename, content, size). -/
def StoreIncomingFile (db : DB) (username filename : Str) (content : Bytes) :
    Except Str Unit × List Call :=
  if content.length > 102400 then (.error errSizeLimit, [])
  else
    match db.exec username filename content content.length with
    | .error e =>
        (.error ((("failed to store incoming file ").toList ++ filename ++
           (": ").toList ++ e)),
         [Call.dbExecInsert username filename content])
    | .ok _ => (.ok (), [Call.dbExecInsert username filename content])

/-- Outcome of one outbound HTTP exchange: building the request may fail, the
transport may fail, or a response arrives with a status code and a body
whose read may itself fail. -/
inductive HttpOutcome where
  | requestError (msg : Str)
  | transportError (msg : Str)
  | response (status : Nat) (body : Except Str Bytes)

/-- SendOrderToAPI from the API-integration storage variant: the same 102400
byte ceiling is checked before the order is marshalled and posted; a
transport failure, body-read failure or non-2xx status is a hard error. -/
def SendOrderToAPI (httpOut : HttpOutcome) (apiURL username apiKey filename : Str)
    (content : Bytes) : Except Str Unit × List Call :=
  if content.length > 102400 then (.error errSizeLimit, [])
  else
    match httpOut with
    | .requestError msg =>
        (.error (("failed to create HTTP request: ").toList ++ msg), [])
    | .transportError msg =>
        (.error (("HTTP request failed: ").toList ++ msg),
         [Call.httpPostOrder username filename content])
    | .response status body =>
        match body with
        | .error msg =>
            (.error (("failed to read response: ").toList ++ msg),
             [Call.httpPostOrder username filename content])
        | .ok b =>
            if status < 200 || 300 ≤ status then
              (.error (("API request failed: HTTP ").toList ++ (Nat.repr status).toList ++
                 (" - ").toList ++ b.map Char.ofNat),
               [Call.httpPostOrder username filename content])
            else (.ok (), [Call.httpPostOrder username filename content])

/-- getMockPricelistData from internal/storage/pricelist-webapi-storage.go,
parameterized by the formatted wall-clock timestamp it embeds. -/
def getMockPricelistData (ts : Str) : Bytes :=
  strBytes ((("PK\nThis is a mock pricelist file for testing SFTP service.\n\nProduct List:\n1. Product A - 10.99 EUR\n2. Product B - 25.50 EUR  \n3. Product C - 45.00 EUR\n\nUpdated: ").toList) ++ ts ++ (("\n").toList))

/-- DownloadFileForUser from internal/storage/pricelist-webapi-storage.go:
only the single pricelist file may be addressed; a request-construction
failure, transport failure, non-200 status or body-read failure each fall
back to the mock pricelist data returned as a successful download. -/
def DownloadFileForUser (httpOut : HttpOutcome) (ts : Str)
    (remotePath username userApiKey : Str) : Except Str Bytes × List Call :=
  if !(remotePath == ("/Hinnat/salhydro_kaikki.zip").toList) &&
      !(remotePath == ("salhydro_kaikki.zip").toList) then
    (.error (("access denied: only salhydro_kaikki.zip is available").toList), [])
  else
    match httpOut with
    | .requestError _ => (.ok (getMockPricelistData ts), [])
    | .transportError _ => (.ok (getMockPricelistData ts), [Call.httpGetPricelist])
    | .response status body =>
        if !(status == 200) then (.ok (getMockPricelistData ts), [Call.httpGetPricelist])
        else
          match body with
          | .error _ => (.ok (getMockPricelistData ts), [Call.httpGetPricelist])
          | .ok data => (.ok data, [Call.httpGetPricelist])

/-- One stored S3 object: its bytes and its last-modified stamp. -/
structure S3Object where
  data : Bytes
  lastModified : Nat

/-- The S3 bucket contents, as object lookup by key. -/
def S3Bucket := Str → Option S3Object

/-- getUserPath from internal/storage/s3.go: prepend the username to the
slash-trimmed path. -/
def getUserPath (username path : Str) : Str :=
  let cleanPath := trimPre path (("/").toList)
  if cleanPath == [] then username ++ ("/").toList
  else username ++ ("/").toList ++ cleanPath

/-- UploadFile from internal/storage/s3.go: a deliberate no-op that logs,
returns success, contacts no backend and leaves the bucket unchanged. -/
def S3UploadFile (bucket : S3Bucket) (username remotePath : Str) (content : Bytes) :
    Except Str Unit × S3Bucket × List Call :=
  (.ok (), bucket, [])

/-- DownloadFile from internal/storage/s3.go: only the bare key
Hinnat/salhydro_kaikki.zip (no leading slash) is accepted; everything else
is rejected as not found before any S3 call. -/
def S3DownloadFile (bucket : S3Bucket) (username remotePath : Str) :
    Except Str Bytes × List Call :=
  if !(remotePath == ("Hinnat/salhydro_kaikki.zip").toList) then
    (.error (("file not found: ").toList ++ remotePath), [])
  else
    let key := getUserPath username remotePath
    match bucket key with
    | some obj => (.ok obj.data, [Call.downloadFile username remotePath])
    | none =>
        (.error (("failed to download file ").toList ++ key),
         [Call.downloadFile username remotePath])

/-- ListFiles from internal/storage/s3.go: the Hinnat directory lists at
most the one well-known object, the root lists the Hinnat folder without
any S3 call, and any other path lists empty. -/
def S3ListFiles (bucket : S3Bucket) (username remotePath : Str) :
    Except Str (List FileInfo) × List Call :=
  if remotePath == ("Hinnat").toList || remotePath == ("Hinnat/").toList then
    let key := getUserPath username (("Hinnat/salhydro_kaikki.zip").toList)
    match bucket key with
    | none => (.ok [], [Call.getFileInfo username key])
    | some obj =>
        (.ok [⟨("salhydro_kaikki.zip").toList, (obj.data.length : Int), obj.lastModified, false⟩],
         [Call.getFileInfo username key])
  else if remotePath == [] || remotePath == ("/").toList then
    (.ok [⟨("Hinnat").toList, 0, 0, true⟩], [])
  else (.ok [], [])

/-- FileExists from internal/storage/s3.go: the Hinnat directory always
exists, only the well-known object is visible, and its existence is checked
against the bucket. -/
def S3FileCheck (bucket : S3Bucket) (username remotePath : Str) :
    Except Str Bool × List Call :=
  if remotePath == ("Hinnat").toList then (.ok true, [])
  else if !(remotePath == ("Hinnat/salhydro_kaikki.zip").toList) then (.ok false, [])
  else
    let key := getUserPath username remotePath
    match bucket key with
    | some _ => (.ok true, [Call.fileCheck username remotePath])
    | none => (.ok false, [Call.fileCheck username remotePath])

/-- GetFileInfo from internal/storage/s3.go: metadata for the Hinnat
directory is synthesized, only the well-known object is visible, and its
metadata comes from the bucket. -/
def S3GetFileInfo (bucket : S3Bucket) (username remotePath : Str) :
    Except Str FileInfo × List Call :=
  if remotePath == ("Hinnat").toList then (.ok ⟨("Hinnat").toList, 0, 0, true⟩, [])
  else if !(remotePath == ("Hinnat/salhydro_kaikki.zip").toList) then
    (.error (("file not found: ").toList ++ remotePath), [])
  else
    let key := getUserPath username remotePath
    match bucket key with
    | some obj =>
        (.ok ⟨("salhydro_kaikki.zip").toList, (obj.data.length : Int), obj.lastModified, false⟩,
         [Call.getFileInfo username remotePath])
    | none =>
        (.error (("failed to get file info for ").toList ++ key),
         [Call.getFileInfo username remotePath])

end storage

namespace s3fs

/-- The Storage interface of the S3-variant dispatcher (part_006). -/
structure Storage where
  UploadFile : Str → Str → Bytes → Except Str Unit
  DownloadFile : Str → Str → Except Str Bytes
  DeleteFile : Str → Str → Except Str Unit
  ListFiles : Str → Str → Except Str (List FileInfo)
  CreateDirectory : Str → Str → Except Str Unit
  FileCheck : Str → Str → Except Str Bool
  GetFileInfo : Str → Str → Except Str FileInfo

/-- The IncomingStorage interface of the S3-variant dispatcher (part_006). -/
structure IncomingStorage where
  StoreIncomingFile : Str → Str → Bytes → Except Str Unit
  FileCheck : Str → Str → Except Str Bool
  ListIncomingFiles : Str → Except Str (List IncomingFileInfo)

/-- The S3FileSystem dispatcher state (part_006). -/
structure S3FileSystem where
  storage : Storage
  incomingStorage : IncomingStorage
  username : Str
  allowedDirs : List Str
  allowedOps : List Str

/-- NewS3FileSystem constructs the S3-variant dispatcher. -/
def NewS3FileSystem (storage : Storage) (incomingStorage : IncomingStorage)
    (username : Str) : S3FileSystem :=
  { storage := storage
    incomingStorage := incomingStorage
    username := username
    allowedDirs := [("/").toList, ("/in").toList, ("/Hinnat").toList]
    allowedOps := [("list").toList, ("read").toList, ("write").toList] }

/-- isPathAllowed of the S3 variant (same body as the first variant). -/
def isPathAllowed (fs : S3FileSystem) (path : Str) : Bool :=
  let path := normalizePath path
  fs.allowedDirs.any (fun allowedDir =>
    path == allowedDir || hasPre path (allowedDir ++ ("/").toList))

/-- isWriteAllowed of the S3 variant: writing is allowed at /in, at /Hinnat
and below either, but never at the root. -/
def isWriteAllowed (path : Str) : Bool :=
  if path == ("/").toList then false
  else hasPre path (("/in/").toList) || hasPre path (("/Hinnat/").toList) ||
    path == ("/in").toList || path == ("/Hinnat").toList

/-- isInIncomingDirectory of the S3 variant (same body as the first). -/
def isInIncomingDirectory (path : Str) : Bool :=
  hasPre path (("/in/").toList) && !(containsChar (trimPre path (("/in/").toList)) '/')

/-- Fileread of the S3 variant: policy checks, then DownloadFile. -/
def Fileread (fs : S3FileSystem) (r : sftpfs.Request) : Except Str Bytes × List Call :=
  if !(isPathAllowed fs r.Filepath) then (.error errPathNotAllowed, [])
  else if isInIncomingDirectory r.Filepath then (.error errInWriteOnly, [])
  else
    match fs.storage.DownloadFile fs.username r.Filepath with
    | .error e => (.error e, [Call.downloadFile fs.username r.Filepath])
    | .ok data => (.ok data, [Call.downloadFile fs.username r.Filepath])

/-- The write handles of the S3 variant. -/
inductive WriterHandle where
  | incomingWriterAt (username filename : Str)
  | s3WriterAt (username path : Str)
  deriving DecidableEq

/-- Filewrite of the S3 variant: policy checks, then handle creation. -/
def Filewrite (fs : S3FileSystem) (r : sftpfs.Request) : Except Str WriterHandle :=
  if !(isPathAllowed fs r.Filepath) || !(isWriteAllowed r.Filepath) then
    .error errWriteNotAllowed
  else if isInIncomingDirectory r.Filepath then
    .ok (WriterHandle.incomingWriterAt fs.username (sftpfs.filepathBase r.Filepath))
  else
    .ok (WriterHandle.s3WriterAt fs.username r.Filepath)

/-- Filecmd of the S3 variant: Remove, Rename and Rmdir always denied; Mkdir
denied outside the writable area and otherwise delegated; other methods
unsupported. -/
def Filecmd (fs : S3FileSystem) (r : sftpfs.Request) : Except Str Unit × List Call :=
  if !(isPathAllowed fs r.Filepath) then (.error errPathNotAllowed, [])
  else if r.Method == ("Remove").toList then (.error errDeleteNotAllowed, [])
  else if r.Method == ("Mkdir").toList then
    if !(isWriteAllowed r.Filepath) then (.error errMkdirNotAllowed, [])
    else
      match fs.storage.CreateDirectory fs.username r.Filepath with
      | .error e => (.error e, [Call.createDirectory fs.username r.Filepath])
      | .ok _ => (.ok (), [Call.createDirectory fs.username r.Filepath])
  else if r.Method == ("Rename").toList then (.error errRenameNotAllowed, [])
  else if r.Method == ("Rmdir").toList then (.error errRmdirNotAllowed, [])
  else (.error errSSHFxOpUnsupported, [])

/-- s3WriterAt.Close of the S3 variant: flush the whole buffer to UploadFile
when nonempty, otherwise succeed without any call. -/
def s3WriterAtClose (storage : Storage) (username path : Str) (data : Bytes) :
    Except Str Unit × List Call :=
  if data.length > 0 then
    match storage.UploadFile username path data with
    | .error e => (.error e, [Call.uploadFile username path data])
    | .ok _ => (.ok (), [Call.uploadFile username path data])
  else (.ok (), [])

/-- incomingWriterAt.Close of the S3 variant: flush the whole buffer to
StoreIncomingFile when nonempty, otherwise succeed without any call. -/
def incomingWriterAtClose (incomingStorage : IncomingStorage)
    (username filename : Str) (data : Bytes) : Except Str Unit × List Call :=
  if data.length > 0 then
    match incomingStorage.StoreIncomingFile username filename data with
    | .error e => (.error e, [Call.storeIncomingFile username filename data])
    | .ok _ => (.ok (), [Call.storeIncomingFile username filename data])
  else (.ok (), [])

/-- The Storage instance main.go wires into NewS3FileSystem: the S3 adapter
of internal/storage/s3.go over a given bucket.  CreateDirectory writes a
zero-byte marker object and reports success; the marker itself is outside
the modelled bucket state because no verified claim depends on it. -/
def s3StorageAdapter (bucket : storage.S3Bucket) : Storage :=
  { UploadFile := fun u p c => (storage.S3UploadFile bucket u p c).1
    DownloadFile := fun u p => (storage.S3DownloadFile bucket u p).1
    DeleteFile := fun _ _ => .ok ()
    ListFiles := fun u p => (storage.S3ListFiles bucket u p).1
    CreateDirectory := fun _ _ => .ok ()
    FileCheck := fun u p => (storage.S3FileCheck bucket u p).1
    GetFileInfo := fun u p => (storage.S3GetFileInfo bucket u p).1 }

/-- The round trip of the S3 deployment: open a write handle on the
/Hinnat/name path, deliver the content in one WriteAt at offset zero, close
the handle (the flush), then read the same path back through the
dispatcher.  The bucket is unchanged throughout because the upload is the
no-op of internal/storage/s3.go. -/
def s3RoundTrip (bucket : storage.S3Bucket) (inc : IncomingStorage)
    (username name : Str) (c : Bytes) : Except Str Bytes :=
  let fs := NewS3FileSystem (s3StorageAdapter bucket) inc username
  let path := ("/Hinnat/").toList ++ name
  match Filewrite fs ⟨("Put").toList, path⟩ with
  | .error e => .error e
  | .ok h =>
      match h with
      | .s3WriterAt u p =>
          match (s3WriterAtClose fs.storage u p (sftpfs.writeAt [] c 0)).1 with
          | .error e => .error e
          | .ok _ => (Fileread fs ⟨("Get").toList, path⟩).1
      | .incomingWriterAt u f =>
          match (incomingWriterAtClose fs.incomingStorage u f (sftpfs.writeAt [] c 0)).1 with
          | .error e => .error e
          | .ok _ => (Fileread fs ⟨("Get").toList, path⟩).1

end s3fs

/-- A concrete pricelist adapter used for witnesses and counterexamples:
every operation succeeds with inert values. -/
def testPricelist : sftpfs.PricelistStorage :=
  { UploadFile := fun _ _ _ => .ok ()
    DownloadFile := fun _ _ => .ok []
    DeleteFile := fun _ _ => .ok ()
    ListFiles := fun _ _ => .ok []
    CreateDirectory := fun _ _ => .ok ()
    FileCheck := fun _ _ => .ok true
    GetFileInfo := fun _ _ => .error [] }

/-- A concrete incoming-orders adapter for witnesses and counterexamples. -/
def testIncoming : sftpfs.IncomingOrdersStorage :=
  { StoreIncomingFile := fun _ _ _ => .ok ()
    FileCheck := fun _ _ => .ok false
    ListIncomingFiles := fun _ => .ok [] }

/-- A dispatcher instance bound to the test adapters and the user alice. -/
def testFs : sftpfs.APIFileSystem :=
  sftpfs.NewAPIFileSystem testPricelist testIncoming (("alice").toList)

/-- A concrete S3-variant storage for witnesses. -/
def testS3Storage : s3fs.Storage :=
  { UploadFile := fun _ _ _ => .ok ()
    DownloadFile := fun _ _ => .ok []
    DeleteFile := fun _ _ => .ok ()
    ListFiles := fun _ _ => .ok []
    CreateDirectory := fun _ _ => .ok ()
    FileCheck := fun _ _ => .ok true
    GetFileInfo := fun _ _ => .error [] }

/-- A concrete S3-variant incoming storage for witnesses. -/
def testS3Incoming : s3fs.IncomingStorage :=
  { StoreIncomingFile := fun _ _ _ => .ok ()
    FileCheck := fun _ _ => .ok false
    ListIncomingFiles := fun _ => .ok [] }

/-- A concrete database dependency for witnesses. -/
def testDB : storage.DB := { exec := fun _ _ _ _ => .ok () }

/-- A concrete pricelist adapter whose download always fails, used to witness
error propagation. -/
def testFailPricelist : sftpfs.PricelistStorage :=
  { UploadFile := fun _ _ _ => .ok ()
    DownloadFile := fun _ _ => .error (("HTTP request failed: boom").toList)
    DeleteFile := fun _ _ => .ok ()
    ListFiles := fun _ _ => .ok []
    CreateDirectory := fun _ _ => .ok ()
    FileCheck := fun _ _ => .ok true
    GetFileInfo := fun _ _ => .error [] }

theorem writeAt_length (d p : Bytes) (off : Nat) :
    (sftpfs.writeAt d p off).length = max d.length (off + p.length) := by
  unfold sftpfs.writeAt
  split <;> simp <;> omega

theorem pad_getD (d : Bytes) (m i : Nat) :
    (d ++ List.replicate m 0).getD i 0 = d.getD i 0 := by
  rcases lt_or_le i d.length with h | h
  · exact List.getD_append _ _ _ _ h
  · rw [List.getD_append_right _ _ _ _ h, List.getD_eq_default _ _ h]
    simp [List.getD_eq_getElem?_getD, List.getElem?_replicate]
    split <;> simp

theorem splice_getD (P p : Bytes) (off i : Nat) (hlen : off + p.length ≤ P.length) :
    (P.take off ++ p ++ P.drop (off + p.length)).getD i 0 =
      if off ≤ i ∧ i < off + p.length then p.getD (i - off) 0 else P.getD i 0 := by
  have hA : (P.take off).length = off := by simp; omega
  rcases lt_or_le i off with h1 | h1
  · rw [List.append_assoc, List.getD_append _ _ _ _ (by omega)]
    rw [if_neg (by omega)]
    simp [List.getD_eq_getElem?_getD, List.getElem?_take, h1]
  · rw [List.append_assoc, List.getD_append_right _ _ _ _ (by omega), hA]
    rcases lt_or_le i (off + p.length) with h2 | h2
    · rw [List.getD_append _ _ _ _ (by omega), if_pos ⟨h1, h2⟩]
    · rw [List.getD_append_right _ _ _ _ (by omega), if_neg (by omega)]
      simp [List.getD_eq_getElem?_getD, List.getElem?_drop]
      congr 2
      omega

theorem writeAt_getD (d p : Bytes) (off i : Nat) :
    (sftpfs.writeAt d p off).getD i 0 =
      if off ≤ i ∧ i < off + p.length then p.getD (i - off) 0 else d.getD i 0 := by
  unfold sftpfs.writeAt
  split
  · rw [splice_getD _ _ _ _ (by simp; omega)]
    rw [pad_getD]
  · rename_i h
    rw [splice_getD _ _ _ _ (by omega)]

theorem runWrites_length (ws : List (Nat × Bytes)) :
    (sftpfs.runWrites ws).length = sftpfs.highWater ws := by
  induction ws using List.reverseRecOn with
  | nil => rfl
  | append_singleton l w ih =>
      simp only [sftpfs.runWrites, sftpfs.highWater, List.foldl_append, List.foldl_cons,
        List.foldl_nil] at *
      rw [writeAt_length, ih]

theorem runWrites_getD (ws : List (Nat × Bytes)) (i : Nat) :
    (sftpfs.runWrites ws).getD i 0 = sftpfs.reassemble ws i := by
  induction ws using List.reverseRecOn with
  | nil => rfl
  | append_singleton l w ih =>
      simp only [sftpfs.runWrites, sftpfs.reassemble, List.foldl_append, List.foldl_cons,
        List.foldl_nil] at *
      rw [writeAt_getD, ih]

theorem slash_toList : ("/").toList = ['/'] := rfl

theorem dot_toList : (".").toList = ['.'] := rfl

theorem inSlash_toList : ("/in/").toList = ['/', 'i', 'n', '/'] := rfl

theorem normalizePath_fixed (q : Str) (hq : hasPre q (("/").toList) = true) :
    normalizePath q = q := by
  cases q with
  | nil => simp [hasPre, slash_toList, List.isPrefixOf] at hq
  | cons a t =>
      have ha : a = '/' := by
        simp [hasPre, slash_toList, List.isPrefixOf] at hq
        exact hq.symm
      subst ha
      unfold normalizePath
      simp [hasPre, slash_toList, dot_toList, List.isPrefixOf]

theorem normalizePath_startsWith (p : Str) :
    hasPre (normalizePath p) (("/").toList) = true := by
  unfold normalizePath
  simp only [slash_toList, dot_toList]
  by_cases h0 : (p == [] || p == ['.']) = true
  · have h0' : p = [] ∨ p = ['.'] := by simpa using h0
    simp [hasPre, List.isPrefixOf_iff_prefix, h0', List.prefix_refl]
  · simp only [h0, Bool.false_eq_true, if_false]
    by_cases h1 : hasPre p ['/'] = true
    · simp [h1]
    · have h1' : ¬ (['/'] <+: p) := fun hc => h1 (List.isPrefixOf_iff_prefix.mpr hc)
      simp [hasPre, List.isPrefixOf_iff_prefix, h1']

theorem normalizePath_idem (p : Str) : normalizePath (normalizePath p) = normalizePath p :=
  normalizePath_fixed _ (normalizePath_startsWith p)

theorem hasTopSegment_normalize (p s : Str) :
    hasTopSegment (normalizePath p) s = hasTopSegment p s := by
  unfold hasTopSegment
  rw [normalizePath_idem]

theorem isPathAllowed_eq_topSegments (s : sftpfs.PricelistStorage)
    (i : sftpfs.IncomingOrdersStorage) (u path : Str) :
    sftpfs.isPathAllowed (sftpfs.NewAPIFileSystem s i u) path =
      (hasTopSegment path [] || hasTopSegment path (("in").toList) ||
        hasTopSegment path (("Hinnat").toList)) := by
  simp only [sftpfs.isPathAllowed, sftpfs.NewAPIFileSystem, hasTopSegment, List.any_cons,
    List.any_nil, Bool.or_false, Bool.or_assoc]
  rfl

theorem hasPre_exists (p pre : Str) (h : hasPre p pre = true) : ∃ t, p = pre ++ t := by
  have := List.isPrefixOf_iff_prefix.mp h
  obtain ⟨t, ht⟩ := this
  exact ⟨t, ht.symm⟩

/-- Claim C7: within one write handle, WriteAt calls delivered in any offset
order are reassembled by offset: the buffer accumulated by any finite
sequence of WriteAt calls has length equal to the highest offset-plus-length
touched, its byte at every index comes from the last delivered segment
covering that index (zero where no segment reaches), and any flush the
close performs sends exactly this reassembled buffer; in particular
delivering 10 bytes at offset 5 and then 5 bytes at offset 0 yields the
15-byte concatenation of the offset-0 segment and the offset-5 segment. -/
theorem claim_C7_reassembly :
    (∀ ws : List (Nat × Bytes),
      (sftpfs.runWrites ws).length = sftpfs.highWater ws ∧
      (∀ i, (sftpfs.runWrites ws).getD i 0 = sftpfs.reassemble ws i) ∧
      (∀ st u p,
        ((sftpfs.apiWriterAtClose st u p (sftpfs.runWrites ws)).2).all
          (fun c => c == Call.uploadFile u p (sftpfs.runWrites ws)) = true) ∧
      (∀ ist u f,
        ((sftpfs.incomingWriterAtClose ist u f (sftpfs.runWrites ws)).2).all
          (fun c => c == Call.storeIncomingFile u f (sftpfs.runWrites ws)) = true)) ∧
    (∀ a b : Bytes, a.length = 5 → b.length = 10 →
      sftpfs.runWrites [(5, b), (0, a)] = a ++ b ∧
      (sftpfs.runWrites [(5, b), (0, a)]).length = 15) := by
  constructor
  · intro ws
    refine ⟨runWrites_length ws, runWrites_getD ws, ?_, ?_⟩
    · intro st u p
      unfold sftpfs.apiWriterAtClose
      split
      · cases st.UploadFile u p (sftpfs.runWrites ws) <;> simp
      · simp
    · intro ist u f
      unfold sftpfs.incomingWriterAtClose
      split
      · cases ist.StoreIncomingFile u f (sftpfs.runWrites ws) <;> simp
      · simp
  · intro a b ha hb
    have h1 : sftpfs.runWrites [(5, b), (0, a)] = a ++ b := by
      show sftpfs.writeAt (sftpfs.writeAt [] b 5) a 0 = a ++ b
      unfold sftpfs.writeAt
      simp [hb, ha]
    exact ⟨h1, by simp [h1, ha, hb]⟩

/-- Witness for claim C7 at the concrete example of the specification: ten
bytes delivered at offset 5, then five bytes at offset 0. -/
theorem claim_C7_witness :
    ([10, 20, 30, 40, 50] : Bytes).length = 5 ∧
    (List.replicate 10 7 : Bytes).length = 10 ∧
    sftpfs.runWrites [(5, List.replicate 10 7), (0, [10, 20, 30, 40, 50])] =
      [10, 20, 30, 40, 50] ++ List.replicate 10 7 :=
  ⟨by decide, by decide,
    (claim_C7_reassembly.2 [10, 20, 30, 40, 50] (List.replicate 10 7)
      (by decide) (by decide)).1⟩

/-- Claim C10: closing a write handle whose buffer is empty performs no
backend call and returns success, for the pricelist handle and the incoming
handle of both dispatcher variants. -/
theorem claim_C10_emptyClose :
    ∀ (st : sftpfs.PricelistStorage) (ist : sftpfs.IncomingOrdersStorage)
      (s2 : s3fs.Storage) (i2 : s3fs.IncomingStorage) (u p f : Str),
      sftpfs.apiWriterAtClose st u p [] = (.ok (), []) ∧
      sftpfs.incomingWriterAtClose ist u f [] = (.ok (), []) ∧
      s3fs.s3WriterAtClose s2 u p [] = (.ok (), []) ∧
      s3fs.incomingWriterAtClose i2 u f [] = (.ok (), []) := by
  intro st ist s2 i2 u p f
  refine ⟨rfl, rfl, rfl, rfl⟩

theorem ad_errPathNotAllowed : isAccessDenied errPathNotAllowed = true := by decide

theorem ad_errDeleteNotAllowed : isAccessDenied errDeleteNotAllowed = true := by decide

theorem ad_errRenameNotAllowed : isAccessDenied errRenameNotAllowed = true := by decide

theorem ad_errRmdirNotAllowed : isAccessDenied errRmdirNotAllowed = true := by decide

theorem ad_errMkdirNotAllowed : isAccessDenied errMkdirNotAllowed = true := by decide

theorem ad_errWriteNotAllowed : isAccessDenied errWriteNotAllowed = true := by decide

/-- Claim C2: for every path and each of the methods Remove, Rename and
Rmdir, Filecmd returns an access-denied error with no storage-adapter call,
for any backend state and any session identity, in both dispatcher
variants. -/
theorem claim_C2_destructiveDenied :
    ∀ (s : sftpfs.PricelistStorage) (i : sftpfs.IncomingOrdersStorage)
      (s2 : s3fs.Storage) (i2 : s3fs.IncomingStorage) (u p m : Str),
      (m = ("Remove").toList ∨ m = ("Rename").toList ∨ m = ("Rmdir").toList) →
      (resultAccessDenied (sftpfs.Filecmd (sftpfs.NewAPIFileSystem s i u) ⟨m, p⟩).1 = true ∧
        (sftpfs.Filecmd (sftpfs.NewAPIFileSystem s i u) ⟨m, p⟩).2 = []) ∧
      (resultAccessDenied (s3fs.Filecmd (s3fs.NewS3FileSystem s2 i2 u) ⟨m, p⟩).1 = true ∧
        (s3fs.Filecmd (s3fs.NewS3FileSystem s2 i2 u) ⟨m, p⟩).2 = []) := by
  intro s i s2 i2 u p m hm
  constructor
  · by_cases h : sftpfs.isPathAllowed (sftpfs.NewAPIFileSystem s i u) p = true
    · rcases hm with rfl | rfl | rfl <;>
        simp [sftpfs.Filecmd, h, resultAccessDenied, ad_errDeleteNotAllowed,
          ad_errRenameNotAllowed, ad_errRmdirNotAllowed]
    · rcases hm with rfl | rfl | rfl <;>
        simp [sftpfs.Filecmd, h, resultAccessDenied, ad_errPathNotAllowed]
  · by_cases h : s3fs.isPathAllowed (s3fs.NewS3FileSystem s2 i2 u) p = true
    · rcases hm with rfl | rfl | rfl <;>
        simp [s3fs.Filecmd, h, resultAccessDenied, ad_errDeleteNotAllowed,
          ad_errRenameNotAllowed, ad_errRmdirNotAllowed]
    · rcases hm with rfl | rfl | rfl <;>
        simp [s3fs.Filecmd, h, resultAccessDenied, ad_errPathNotAllowed]

/-- Witness for claim C2: a Remove request on an allowed path and a Rename
request on a disallowed path are both denied without any adapter call. -/
theorem claim_C2_witness :
    ((("Remove").toList : Str) = ("Remove").toList ∨
      (("Remove").toList : Str) = ("Rename").toList ∨
      (("Remove").toList : Str) = ("Rmdir").toList) ∧
    resultAccessDenied
      (sftpfs.Filecmd testFs ⟨("Remove").toList, ("/Hinnat/salhydro_kaikki.zip").toList⟩).1 =
      true ∧
    (sftpfs.Filecmd testFs ⟨("Remove").toList, ("/Hinnat/salhydro_kaikki.zip").toList⟩).2 = [] :=
  ⟨Or.inl rfl,
    (claim_C2_destructiveDenied testPricelist testIncoming testS3Storage testS3Incoming
      (("alice").toList) (("/Hinnat/salhydro_kaikki.zip").toList) (("Remove").toList)
      (Or.inl rfl)).1.1,
    (claim_C2_destructiveDenied testPricelist testIncoming testS3Storage testS3Incoming
      (("alice").toList) (("/Hinnat/salhydro_kaikki.zip").toList) (("Remove").toList)
      (Or.inl rfl)).1.2⟩

/-- Counterexample for claim C1: the path //foo has an empty top-level
segment, which is neither in nor Hinnat, and is not the root, yet Fileread
passes it (the root whitelist entry matches every path beginning with two
slashes) and invokes the pricelist download adapter instead of returning an
access-denied error. -/
theorem claim_C1_counterexample :
    hasTopSegment (("//foo").toList) (("in").toList) = false ∧
    hasTopSegment (("//foo").toList) (("Hinnat").toList) = false ∧
    normalizePath (("//foo").toList) ≠ ("/").toList ∧
    (sftpfs.Fileread testFs ⟨("Get").toList, ("//foo").toList⟩).1 = .ok [] ∧
    (sftpfs.Fileread testFs ⟨("Get").toList, ("//foo").toList⟩).2 =
      [Call.downloadFile (("alice").toList) (("//foo").toList)] :=
  ⟨by decide, by decide, by decide, rfl, rfl⟩

/-- Claim C1 as amended: for every path whose top-level segment is not in,
not Hinnat and also not empty (a path beginning with two slashes slips
through the whitelist and is excluded), every dispatcher operation returns
an access-denied error and invokes no storage-adapter operation, except
that Filelist invoked with the Readlink method returns the unsupported
error before any path check, still with no adapter call. -/
theorem claim_C1_amended :
    ∀ (s : sftpfs.PricelistStorage) (i : sftpfs.IncomingOrdersStorage)
      (u path m : Str) (now : Nat),
      hasTopSegment path [] = false →
      hasTopSegment path (("in").toList) = false →
      hasTopSegment path (("Hinnat").toList) = false →
      (sftpfs.Fileread (sftpfs.NewAPIFileSystem s i u) ⟨m, path⟩ =
        (.error errPathNotAllowed, [])) ∧
      (sftpfs.Filewrite (sftpfs.NewAPIFileSystem s i u) ⟨m, path⟩ =
        .error errWriteNotAllowed) ∧
      (sftpfs.Filecmd (sftpfs.NewAPIFileSystem s i u) ⟨m, path⟩ =
        (.error errPathNotAllowed, [])) ∧
      (sftpfs.Stat (sftpfs.NewAPIFileSystem s i u) ⟨m, path⟩ now =
        (.error errPathNotAllowed, [])) ∧
      (m ≠ ("Readlink").toList →
        sftpfs.Filelist (sftpfs.NewAPIFileSystem s i u) ⟨m, path⟩ now =
          (.error errPathNotAllowed, [])) ∧
      (sftpfs.Filelist (sftpfs.NewAPIFileSystem s i u) ⟨("Readlink").toList, path⟩ now =
        (.error errSSHFxOpUnsupported, [])) := by
  intro s i u path m now h0 h1 h2
  have hA : sftpfs.isPathAllowed (sftpfs.NewAPIFileSystem s i u) path = false := by
    rw [isPathAllowed_eq_topSegments, h0, h1, h2]
    rfl
  have hA' : sftpfs.isPathAllowed (sftpfs.NewAPIFileSystem s i u) (normalizePath path) = false := by
    rw [isPathAllowed_eq_topSegments, hasTopSegment_normalize, hasTopSegment_normalize,
      hasTopSegment_normalize, h0, h1, h2]
    rfl
  refine ⟨?_, ?_, ?_, ?_, ?_, ?_⟩
  · simp [sftpfs.Fileread, hA]
  · simp [sftpfs.Filewrite, hA]
  · simp [sftpfs.Filecmd, hA]
  · simp [sftpfs.Stat, hA']
  · intro hm
    have hm' : (m == ("Readlink").toList) = false := by
      simpa using hm
    simp only [sftpfs.Filelist, hm', Bool.false_eq_true, if_false]
    simp [hA]
  · simp [sftpfs.Filelist, hA]

/-- Witness for claim C1 at the path /foo for the method Get, and for the
Readlink branch of Filelist. -/
theorem claim_C1_witness :
    hasTopSegment (("/foo").toList) [] = false ∧
    hasTopSegment (("/foo").toList) (("in").toList) = false ∧
    hasTopSegment (("/foo").toList) (("Hinnat").toList) = false ∧
    sftpfs.Fileread testFs ⟨("Get").toList, ("/foo").toList⟩ = (.error errPathNotAllowed, []) ∧
    sftpfs.Filelist testFs ⟨("Get").toList, ("/foo").toList⟩ 0 = (.error errPathNotAllowed, []) ∧
    sftpfs.Filelist testFs ⟨("Readlink").toList, ("/foo").toList⟩ 0 =
      (.error errSSHFxOpUnsupported, []) :=
  ⟨by decide, by decide, by decide,
    (claim_C1_amended testPricelist testIncoming (("alice").toList) (("/foo").toList)
      (("Get").toList) 0 (by decide) (by decide) (by decide)).1,
    (claim_C1_amended testPricelist testIncoming (("alice").toList) (("/foo").toList)
      (("Get").toList) 0 (by decide) (by decide) (by decide)).2.2.2.2.1 (by decide),
    (claim_C1_amended testPricelist testIncoming (("alice").toList) (("/foo").toList)
      (("Get").toList) 0 (by decide) (by decide) (by decide)).2.2.2.2.2⟩

/-- Counterexample for claim C3: the nested path /in/a/b has the prefix /in/
but is not a direct child of /in, so Fileread does not return the
write-only denial; it falls through and invokes the pricelist download
adapter. -/
theorem claim_C3_counterexample :
    hasPre (("/in/a/b").toList) (("/in/").toList) = true ∧
    (sftpfs.Fileread testFs ⟨("Get").toList, ("/in/a/b").toList⟩).1 = .ok [] ∧
    (sftpfs.Fileread testFs ⟨("Get").toList, ("/in/a/b").toList⟩).2 =
      [Call.downloadFile (("alice").toList) (("/in/a/b").toList)] :=
  ⟨by decide, rfl, rfl⟩

/-- Claim C3 as amended: for every direct child of the incoming directory
(a path of the form /in/name with no further slash in name) Fileread
returns the specific write-only denial and never invokes the download
adapter; paths nested deeper under /in instead fall through to the
pricelist download. -/
theorem claim_C3_amended :
    ∀ (s : sftpfs.PricelistStorage) (i : sftpfs.IncomingOrdersStorage) (u m t : Str),
      t.contains '/' = false →
      sftpfs.Fileread (sftpfs.NewAPIFileSystem s i u) ⟨m, ("/in/").toList ++ t⟩ =
        (.error errInWriteOnly, []) := by
  intro s i u m t h
  have h' : '/' ∉ t := by simpa using h
  simp [sftpfs.Fileread, sftpfs.isPathAllowed, sftpfs.NewAPIFileSystem,
    sftpfs.isInIncomingDirectory, normalizePath, hasPre, trimPre, containsChar,
    List.isPrefixOf, h', inSlash_toList, slash_toList, dot_toList]

/-- Witness for claim C3 at the direct child /in/order.txt. -/
theorem claim_C3_witness :
    ((("order.txt").toList : Str).contains '/') = false ∧
    sftpfs.Fileread testFs ⟨("Get").toList, ("/in/").toList ++ ("order.txt").toList⟩ =
      (.error errInWriteOnly, []) :=
  ⟨by decide,
    claim_C3_amended testPricelist testIncoming (("alice").toList) (("Get").toList)
      (("order.txt").toList) (by decide)⟩

theorem writeAllowed_pathAllowed (s : sftpfs.PricelistStorage)
    (i : sftpfs.IncomingOrdersStorage) (u path : Str)
    (h : sftpfs.isWriteAllowed path = true) :
    sftpfs.isPathAllowed (sftpfs.NewAPIFileSystem s i u) path = true := by
  unfold sftpfs.isWriteAllowed at h
  by_cases h0 : (path == ("/").toList) = true
  · rw [if_pos h0] at h
    exact absurd h (by simp)
  · rw [if_neg h0] at h
    cases (Bool.or_eq_true _ _).mp h with
    | inl hp =>
        obtain ⟨t, rfl⟩ := hasPre_exists path _ hp
        simp [sftpfs.isPathAllowed, sftpfs.NewAPIFileSystem, normalizePath, hasPre,
          List.isPrefixOf, inSlash_toList, slash_toList, dot_toList]
    | inr he =>
        have hpe : path = ("/in").toList := by simpa using he
        subst hpe
        simp [sftpfs.isPathAllowed, sftpfs.NewAPIFileSystem, normalizePath, hasPre,
          List.isPrefixOf]

/-- Counterexample for claim C5: a Mkdir on /in/newdir is not denied; the
dispatcher delegates it to the adapter directory-creation operation and
returns its success. -/
theorem claim_C5_counterexample :
    (sftpfs.Filecmd testFs ⟨("Mkdir").toList, ("/in/newdir").toList⟩).1 = .ok () ∧
    (sftpfs.Filecmd testFs ⟨("Mkdir").toList, ("/in/newdir").toList⟩).2 =
      [Call.createDirectory (("alice").toList) (("/in/newdir").toList)] :=
  ⟨rfl, rfl⟩

/-- Claim C5 as amended: Filecmd with method Mkdir delegates to the adapter
directory-creation operation exactly on /in and the paths beneath it (the
write-allowed area), returning the adapter result, and returns an
access-denied error with no adapter call everywhere else. -/
theorem claim_C5_amended :
    ∀ (s : sftpfs.PricelistStorage) (i : sftpfs.IncomingOrdersStorage) (u path : Str),
      (sftpfs.isWriteAllowed path = true →
        sftpfs.Filecmd (sftpfs.NewAPIFileSystem s i u) ⟨("Mkdir").toList, path⟩ =
          ((match s.CreateDirectory u path with
            | .error e => Except.error e
            | .ok _ => Except.ok ()),
           [Call.createDirectory u path])) ∧
      (sftpfs.isWriteAllowed path = false →
        resultAccessDenied
            (sftpfs.Filecmd (sftpfs.NewAPIFileSystem s i u) ⟨("Mkdir").toList, path⟩).1 =
          true ∧
        (sftpfs.Filecmd (sftpfs.NewAPIFileSystem s i u) ⟨("Mkdir").toList, path⟩).2 = []) := by
  intro s i u path
  constructor
  · intro h
    have hA := writeAllowed_pathAllowed s i u path h
    have hst : (sftpfs.NewAPIFileSystem s i u).storage = s := rfl
    have hu : (sftpfs.NewAPIFileSystem s i u).username = u := rfl
    simp only [sftpfs.Filecmd, hA, h, hst, hu]
    cases s.CreateDirectory u path <;> simp
  · intro h
    by_cases hA : sftpfs.isPathAllowed (sftpfs.NewAPIFileSystem s i u) path = true
    · simp [sftpfs.Filecmd, hA, h, resultAccessDenied, ad_errMkdirNotAllowed]
    · rw [Bool.not_eq_true] at hA
      simp [sftpfs.Filecmd, hA, resultAccessDenied, ad_errPathNotAllowed]

/-- Witness for claim C5: Mkdir on /in/newdir delegates and succeeds against
the test adapter; Mkdir on /Hinnat is denied. -/
theorem claim_C5_witness :
    sftpfs.isWriteAllowed (("/in/newdir").toList) = true ∧
    sftpfs.isWriteAllowed (("/Hinnat").toList) = false ∧
    sftpfs.Filecmd testFs ⟨("Mkdir").toList, ("/in/newdir").toList⟩ =
      (.ok (), [Call.createDirectory (("alice").toList) (("/in/newdir").toList)]) ∧
    resultAccessDenied (sftpfs.Filecmd testFs ⟨("Mkdir").toList, ("/Hinnat").toList⟩).1 =
      true :=
  ⟨by decide, by decide,
    (claim_C5_amended testPricelist testIncoming (("alice").toList)
      (("/in/newdir").toList)).1 (by decide),
    ((claim_C5_amended testPricelist testIncoming (("alice").toList)
      (("/Hinnat").toList)).2 (by decide)).1⟩

/-- Counterexample for claim C9: two consecutive root listings are not
identical sequences, because each synthesized entry carries the wall-clock
time of its own call as its modified time. -/
theorem claim_C9_counterexample :
    sftpfs.Filelist testFs ⟨("List").toList, ("/").toList⟩ 0 =
      (.ok [⟨("in").toList, 0, 0, true⟩, ⟨("Hinnat").toList, 0, 0, true⟩], []) ∧
    sftpfs.Filelist testFs ⟨("List").toList, ("/").toList⟩ 1 =
      (.ok [⟨("in").toList, 0, 1, true⟩, ⟨("Hinnat").toList, 0, 1, true⟩], []) ∧
    ([⟨("in").toList, 0, 0, true⟩, ⟨("Hinnat").toList, 0, 0, true⟩] :
        List sftpfs.apiFileInfo) ≠
      [⟨("in").toList, 0, 1, true⟩, ⟨("Hinnat").toList, 0, 1, true⟩] :=
  ⟨rfl, rfl, by decide⟩

/-- Claim C9 as amended: every root listing returns, with no adapter call,
exactly the two synthesized directory entries named in and Hinnat, each a
directory of size zero and in that fixed order; two consecutive calls agree
on names, sizes, directory flags and order, and differ only in the
modified-time field, which is the wall-clock time of each call. -/
theorem claim_C9_amended :
    ∀ (s : sftpfs.PricelistStorage) (i : sftpfs.IncomingOrdersStorage) (u : Str)
      (t1 t2 : Nat),
      sftpfs.Filelist (sftpfs.NewAPIFileSystem s i u) ⟨("List").toList, ("/").toList⟩ t1 =
        (.ok [⟨("in").toList, 0, t1, true⟩, ⟨("Hinnat").toList, 0, t1, true⟩], []) ∧
      sftpfs.Filelist (sftpfs.NewAPIFileSystem s i u) ⟨("List").toList, ("/").toList⟩ t2 =
        (.ok [⟨("in").toList, 0, t2, true⟩, ⟨("Hinnat").toList, 0, t2, true⟩], []) ∧
      List.map (fun e => (e.name, e.size, e.isDir))
          ([⟨("in").toList, 0, t1, true⟩, ⟨("Hinnat").toList, 0, t1, true⟩] :
            List sftpfs.apiFileInfo) =
        List.map (fun e => (e.name, e.size, e.isDir))
          ([⟨("in").toList, 0, t2, true⟩, ⟨("Hinnat").toList, 0, t2, true⟩] :
            List sftpfs.apiFileInfo) := by
  intro s i u t1 t2
  refine ⟨?_, ?_, rfl⟩ <;>
    simp [sftpfs.Filelist, sftpfs.isPathAllowed, sftpfs.NewAPIFileSystem, normalizePath,
      hasPre, List.isPrefixOf, sftpfs.listRootDirectory, slash_toList, dot_toList]

/-- Claim C4: content longer than 102400 bytes is rejected whole by the
incoming-file store with the size-limit error before any database insert,
and by the order-upload variant before any HTTP post; no backend call
happens and nothing is truncated or partially applied. -/
theorem claim_C4_sizeLimit :
    ∀ (db : storage.DB) (httpOut : storage.HttpOutcome) (apiURL u k f : Str)
      (content : Bytes),
      content.length > 102400 →
      storage.StoreIncomingFile db u f content = (.error storage.errSizeLimit, []) ∧
      storage.SendOrderToAPI httpOut apiURL u k f content =
        (.error storage.errSizeLimit, []) := by
  intro db httpOut apiURL u k f content h
  constructor
  · unfold storage.StoreIncomingFile
    rw [if_pos h]
  · unfold storage.SendOrderToAPI
    rw [if_pos h]

/-- Witness for claim C4 at a content of 102401 zero bytes. -/
theorem claim_C4_witness :
    (List.replicate 102401 0 : Bytes).length > 102400 ∧
    storage.StoreIncomingFile testDB (("alice").toList) (("order.txt").toList)
        (List.replicate 102401 0) =
      (.error storage.errSizeLimit, []) ∧
    storage.SendOrderToAPI (storage.HttpOutcome.response 200 (.ok []))
        (("http://api").toList) (("alice").toList) (("key").toList) (("order.txt").toList)
        (List.replicate 102401 0) =
      (.error storage.errSizeLimit, []) :=
  ⟨by rw [List.length_replicate]; norm_num,
    (claim_C4_sizeLimit testDB (storage.HttpOutcome.response 200 (.ok []))
      (("http://api").toList) (("alice").toList) (("key").toList) (("order.txt").toList)
      (List.replicate 102401 0) (by rw [List.length_replicate]; norm_num)).1,
    (claim_C4_sizeLimit testDB (storage.HttpOutcome.response 200 (.ok []))
      (("http://api").toList) (("alice").toList) (("key").toList) (("order.txt").toList)
      (List.replicate 102401 0) (by rw [List.length_replicate]; norm_num)).2⟩

/-- Counterexample for claim C8: a 500 response from the pricelist backend
does not surface as an error; DownloadFileForUser substitutes the nonempty
mock pricelist data and reports success. -/
theorem claim_C8_counterexample :
    storage.DownloadFileForUser (storage.HttpOutcome.response 500 (.ok []))
        [] (("salhydro_kaikki.zip").toList) (("alice").toList) (("key").toList) =
      (.ok (storage.getMockPricelistData []), [Call.httpGetPricelist]) ∧
    storage.getMockPricelistData [] ≠ [] :=
  ⟨rfl, by decide⟩

/-- Claim C8 as amended: the dispatcher itself propagates adapter download
failures unchanged and without retry, but the web-API pricelist adapter
never lets a backend failure surface: a transport failure or a non-200
response makes DownloadFileForUser return fabricated mock pricelist data as
a successful download. -/
theorem claim_C8_amended :
    (∀ (st : sftpfs.PricelistStorage) (i : sftpfs.IncomingOrdersStorage) (u : Str)
        (r : sftpfs.Request) (e : Str),
        sftpfs.isPathAllowed (sftpfs.NewAPIFileSystem st i u) r.Filepath = true →
        sftpfs.isInIncomingDirectory r.Filepath = false →
        st.DownloadFile u r.Filepath = .error e →
        sftpfs.Fileread (sftpfs.NewAPIFileSystem st i u) r =
          (.error e, [Call.downloadFile u r.Filepath])) ∧
    (∀ (msg ts u k : Str),
        storage.DownloadFileForUser (storage.HttpOutcome.transportError msg) ts
            (("salhydro_kaikki.zip").toList) u k =
          (.ok (storage.getMockPricelistData ts), [Call.httpGetPricelist])) ∧
    (∀ (status : Nat) (body : Except Str Bytes) (ts u k : Str),
        (status == 200) = false →
        storage.DownloadFileForUser (storage.HttpOutcome.response status body) ts
            (("salhydro_kaikki.zip").toList) u k =
          (.ok (storage.getMockPricelistData ts), [Call.httpGetPricelist])) := by
  refine ⟨?_, ?_, ?_⟩
  · intro st i u r e hA hIn hD
    have hst : (sftpfs.NewAPIFileSystem st i u).storage = st := rfl
    have hu : (sftpfs.NewAPIFileSystem st i u).username = u := rfl
    simp [sftpfs.Fileread, hA, hIn, hst, hu, hD]
  · intro msg ts u k
    simp [storage.DownloadFileForUser]
  · intro status body ts u k h
    simp [storage.DownloadFileForUser, h]

/-- Witness for claim C8: the failing test adapter propagates its message
through Fileread unchanged, and a 500 response yields the mock fallback. -/
theorem claim_C8_witness :
    sftpfs.isPathAllowed
        (sftpfs.NewAPIFileSystem testFailPricelist testIncoming (("alice").toList))
        (("/Hinnat/salhydro_kaikki.zip").toList) = true ∧
    sftpfs.isInIncomingDirectory (("/Hinnat/salhydro_kaikki.zip").toList) = false ∧
    sftpfs.Fileread (sftpfs.NewAPIFileSystem testFailPricelist testIncoming (("alice").toList))
        ⟨("Get").toList, ("/Hinnat/salhydro_kaikki.zip").toList⟩ =
      (.error (("HTTP request failed: boom").toList),
        [Call.downloadFile (("alice").toList) (("/Hinnat/salhydro_kaikki.zip").toList)]) ∧
    storage.DownloadFileForUser (storage.HttpOutcome.response 503 (.ok []))
        [] (("salhydro_kaikki.zip").toList) (("alice").toList) (("key").toList) =
      (.ok (storage.getMockPricelistData []), [Call.httpGetPricelist]) :=
  ⟨by decide, by decide,
    claim_C8_amended.1 testFailPricelist testIncoming (("alice").toList)
      ⟨("Get").toList, ("/Hinnat/salhydro_kaikki.zip").toList⟩
      (("HTTP request failed: boom").toList) (by decide) (by decide) rfl,
    claim_C8_amended.2.2 503 (.ok []) [] (("alice").toList) (("key").toList) (by decide)⟩

theorem writeAt_nil_zero (c : Bytes) : sftpfs.writeAt [] c 0 = c := by
  unfold sftpfs.writeAt
  split <;> simp

/-- Claim C6 is contradicted by the code: in the S3 deployment the
round trip of writing content to /Hinnat/salhydro_kaikki.zip and reading
it back never returns the content.  The S3 UploadFile is a deliberate no-op
that succeeds without storing anything or touching the bucket, and the S3
DownloadFile compares the dispatcher path, which keeps its leading slash,
against the bare key Hinnat/salhydro_kaikki.zip, so every dispatcher read
under /Hinnat fails as not found, whatever the bucket holds. -/
theorem claim_C6_roundTripBroken :
    ∀ (bucket : storage.S3Bucket) (inc : s3fs.IncomingStorage) (u : Str) (c : Bytes),
      s3fs.s3RoundTrip bucket inc u (("salhydro_kaikki.zip").toList) c =
        .error (("file not found: /Hinnat/salhydro_kaikki.zip").toList) ∧
      (∀ (b : storage.S3Bucket) (u2 p2 : Str) (c2 : Bytes),
        storage.S3UploadFile b u2 p2 c2 = (.ok (), b, [])) := by
  intro bucket inc u c
  refine ⟨?_, fun b u2 p2 c2 => rfl⟩
  unfold s3fs.s3RoundTrip
  rw [writeAt_nil_zero]
  simp only [s3fs.Filewrite, s3fs.Fileread, s3fs.isPathAllowed, s3fs.NewS3FileSystem,
    s3fs.isWriteAllowed, s3fs.isInIncomingDirectory, s3fs.s3WriterAtClose,
    s3fs.s3StorageAdapter, storage.S3UploadFile, storage.S3DownloadFile,
    normalizePath, hasPre, trimPre, containsChar, List.isPrefixOf]
  simp
  cases c with
  | nil => simp
  | cons a t => simp
